import Mathlib

/-!
Shallow embedding of the combine step of `diarize_transcribe.ipynb`.

The notebook delegates transcription (Whisper) and diarization (Pyannote) to
external libraries; the repository's own logic is:
  * a configuration cell that reads the `HF_TOKEN` environment variable and
    raises `ValueError` when it is missing or empty;
  * a combine loop that, for each transcript segment, scans the diarization
    turns, tracks the turn of maximum time-overlap (strict `>` comparison,
    starting from `max_overlap = 0` and `current_speaker = None`), and writes
    one formatted line per segment to the output file.

Times are modelled by rationals, texts and speaker labels by strings, the
environment lookup by an `Option String`, and raising by `Except`.
-/

namespace DiarizeTranscribe

/-- A transcript segment, as produced by `result['segments']`: the fields
`segment_start`, `segment_end` and `segment_text` read by the combine loop.
Python's `end` is a reserved word in Lean, so the field is called `stop`. -/
structure TranscriptSegment where
  start : ℚ
  stop : ℚ
  text : String

/-- One entry of `diarization_list`: a diarization turn `(turn, _, speaker)`
with its time interval `turn.start`, `turn.end` and its speaker label. -/
structure SpeakerTurn where
  start : ℚ
  stop : ℚ
  speaker : String

/-- The interval-overlap arithmetic of the loop body:
`overlap_start = max(s1, s2)`, `overlap_end = min(e1, e2)`,
`overlap = max(0, overlap_end - overlap_start)`. -/
def intervalOverlap (s1 e1 s2 e2 : ℚ) : ℚ :=
  let overlap_start := max s1 s2
  let overlap_end := min e1 e2
  max 0 (overlap_end - overlap_start)

/-- The overlap the loop computes for a segment and a turn. -/
def segmentTurnOverlap (seg : TranscriptSegment) (t : SpeakerTurn) : ℚ :=
  intervalOverlap seg.start seg.stop t.start t.stop

/-- One iteration of the inner loop over `diarization_list`: the state is the
pair `(max_overlap, current_speaker)`, updated only when
`overlap > max_overlap`. -/
def speakerFoldStep (seg : TranscriptSegment) (st : ℚ × Option String)
    (t : SpeakerTurn) : ℚ × Option String :=
  let overlap := segmentTurnOverlap seg t
  if st.1 < overlap then (overlap, some t.speaker) else st

/-- The inner loop over the turn list, started from
`max_overlap = 0`, `current_speaker = None`. -/
def assignSpeakerFold (seg : TranscriptSegment) (turns : List SpeakerTurn) :
    ℚ × Option String :=
  turns.foldl (speakerFoldStep seg) (0, none)

/-- The `current_speaker` value after the inner loop has run. -/
def current_speaker (seg : TranscriptSegment) (turns : List SpeakerTurn) :
    Option String :=
  (assignSpeakerFold seg turns).2

/-- Characters stripped by Python's `str.strip()`. -/
def pyIsSpace (c : Char) : Bool :=
  c = ' ' || c = '\t' || c = '\n' || c = '\r' || c = '\x0b' || c = '\x0c'

/-- Python's `str.strip()`: drop whitespace from both ends. -/
def pyStrip (s : String) : String :=
  String.mk (((s.toList.dropWhile pyIsSpace).reverse.dropWhile pyIsSpace).reverse)

/-- Floor of a rational, computed from its numerator and denominator. -/
def ratFloor (q : ℚ) : ℤ :=
  Int.fdiv q.num (q.den : ℤ)

/-- Rounding to the nearest integer with ties to even, the rounding used by
Python's fixed-point formatting. -/
def roundHalfEven (q : ℚ) : ℤ :=
  let f := ratFloor q
  let r := q - (f : ℚ)
  if r < 1 / 2 then f
  else if 1 / 2 < r then f + 1
  else if f % 2 = 0 then f else f + 1

/-- Renders a natural number of tenths as a decimal with one fractional
digit. -/
def natOneDecimal (m : ℕ) : String :=
  toString (m / 10) ++ "." ++ toString (m % 10)

/-- Model of Python's `f"{x:.1f}"`: round to one decimal place with ties to
even, then print with exactly one fractional digit. -/
def fmt1 (q : ℚ) : String :=
  let n := roundHalfEven (10 * q)
  if n < 0 then "-" ++ natOneDecimal n.natAbs else natOneDecimal n.toNat

/-- Python's rendering of an `Optional[str]` inside an f-string: `None`
prints as the literal text `None`. -/
def pyStr : Option String → String
  | none => "None"
  | some s => s

/-- The line the loop writes for one segment:
`f"[{start_time} -> {end_time}] {current_speaker}: {segment_text.strip()}\n"`
with `start_time = f"{segment_start:.1f}s"` and
`end_time = f"{segment_end:.1f}s"`. -/
def formatLine (seg : TranscriptSegment) (turns : List SpeakerTurn) : String :=
  let start_time := fmt1 seg.start ++ "s"
  let end_time := fmt1 seg.stop ++ "s"
  "[" ++ start_time ++ " -> " ++ end_time ++ "] "
    ++ pyStr (current_speaker seg turns) ++ ": " ++ pyStrip seg.text ++ "\n"

/-- The outer loop over `result['segments']`: the sequence of lines written to
`transcription_with_speakers.txt`, in write order. -/
def combineLines (segments : List TranscriptSegment)
    (turns : List SpeakerTurn) : List String :=
  segments.foldl (fun acc seg => acc ++ [formatLine seg turns]) []

/-- The full content of the combined output file. -/
def combinedOutput (segments : List TranscriptSegment)
    (turns : List SpeakerTurn) : String :=
  String.join (combineLines segments turns)

/-- The speaker assigned to each segment, in segment order. -/
def assignedSpeakers (segs : List TranscriptSegment)
    (turns : List SpeakerTurn) : List (Option String) :=
  segs.map (fun s => current_speaker s turns)

/-- Length of the closed interval from `a` to `b` (zero when it is empty). -/
def intervalLength (a b : ℚ) : ℚ :=
  max 0 (b - a)

/-- The message of the `ValueError` raised by the configuration cell. -/
def hfTokenError : String :=
  "HF_TOKEN not found in environment variables. Please set it up first."

/-- The configuration cell: `HF_TOKEN = os.getenv('HF_TOKEN')` followed by
`if not HF_TOKEN: raise ValueError(...)`. `os.getenv` returns `None` when the
variable is unset, and Python's `not` is true on `None` and on the empty
string. -/
def checkHfToken : Option String → Except String String
  | none => Except.error hfTokenError
  | some s => if s = "" then Except.error hfTokenError else Except.ok s

/-- The configuration cell followed by the model-initialization cell: the
models (loaded by the external libraries, out of scope here and represented by
their identifiers) are loaded only if the token check did not raise. -/
def notebookInit (env : Option String) : Except String (String × String) :=
  match checkHfToken env with
  | Except.error e => Except.error e
  | Except.ok _ => Except.ok ("large-v3", "pyannote/speaker-diarization-3.1")

/-! Helper lemmas about the inner loop and the outer loop. -/

/-- The overlap the loop computes is never negative. -/
theorem segmentTurnOverlap_nonneg (seg : TranscriptSegment) (t : SpeakerTurn) :
    0 ≤ segmentTurnOverlap seg t :=
  le_max_left _ _

/-- Full characterization of the inner loop from an arbitrary state: the
tracked maximum never decreases, it bounds every overlap seen, and the final
state is either the initial one or records the overlap and speaker of one of
the turns, strictly above the initial maximum. -/
theorem foldl_speakerStep_spec (seg : TranscriptSegment) :
    ∀ (turns : List SpeakerTurn) (m : ℚ) (cur : Option String),
      m ≤ (List.foldl (speakerFoldStep seg) (m, cur) turns).1 ∧
      (∀ t ∈ turns,
        segmentTurnOverlap seg t ≤ (List.foldl (speakerFoldStep seg) (m, cur) turns).1) ∧
      (List.foldl (speakerFoldStep seg) (m, cur) turns = (m, cur) ∨
        ∃ t ∈ turns,
          (List.foldl (speakerFoldStep seg) (m, cur) turns).1 = segmentTurnOverlap seg t ∧
          (List.foldl (speakerFoldStep seg) (m, cur) turns).2 = some t.speaker ∧
          m < (List.foldl (speakerFoldStep seg) (m, cur) turns).1) := by
  intro turns
  induction turns with
  | nil =>
    intro m cur
    simp
  | cons t ts ih =>
    intro m cur
    by_cases h : m < segmentTurnOverlap seg t
    · have hstep : List.foldl (speakerFoldStep seg) (m, cur) (t :: ts) =
          List.foldl (speakerFoldStep seg) (segmentTurnOverlap seg t, some t.speaker) ts := by
        simp [List.foldl_cons, speakerFoldStep, h]
      obtain ⟨ih1, ih2, ih3⟩ := ih (segmentTurnOverlap seg t) (some t.speaker)
      rw [hstep]
      refine ⟨le_trans (le_of_lt h) ih1, ?_, ?_⟩
      · intro u hu
        rcases List.mem_cons.mp hu with hu | hu
        · rw [hu]; exact ih1
        · exact ih2 u hu
      · rcases ih3 with h3 | ⟨u, hu, hu1, hu2, hu3⟩
        · exact Or.inr ⟨t, List.mem_cons_self t ts, by rw [h3], by rw [h3], by rw [h3]; exact h⟩
        · exact Or.inr ⟨u, List.mem_cons_of_mem t hu, hu1, hu2, lt_trans h hu3⟩
    · have hstep : List.foldl (speakerFoldStep seg) (m, cur) (t :: ts) =
          List.foldl (speakerFoldStep seg) (m, cur) ts := by
        simp [List.foldl_cons, speakerFoldStep, h]
      obtain ⟨ih1, ih2, ih3⟩ := ih m cur
      rw [hstep]
      refine ⟨ih1, ?_, ?_⟩
      · intro u hu
        rcases List.mem_cons.mp hu with hu | hu
        · rw [hu]; exact le_trans (not_lt.mp h) ih1
        · exact ih2 u hu
      · rcases ih3 with h3 | ⟨u, hu, hu1, hu2, hu3⟩
        · exact Or.inl h3
        · exact Or.inr ⟨u, List.mem_cons_of_mem t hu, hu1, hu2, hu3⟩

/-- When no turn's overlap exceeds the initial maximum, the inner loop leaves
its state unchanged (the comparison is strict). -/
theorem foldl_speakerStep_of_le (seg : TranscriptSegment) (turns : List SpeakerTurn)
    (m : ℚ) (cur : Option String)
    (h : ∀ t ∈ turns, segmentTurnOverlap seg t ≤ m) :
    List.foldl (speakerFoldStep seg) (m, cur) turns = (m, cur) := by
  obtain ⟨-, -, h3⟩ := foldl_speakerStep_spec seg turns m cur
  rcases h3 with h3 | ⟨t, ht, ht1, -, ht3⟩
  · exact h3
  · exact absurd (ht1 ▸ ht3) (not_lt.mpr (h t ht))

/-- The chosen speaker depends on the segment only through its endpoints. -/
theorem current_speaker_congr (s1 s2 : TranscriptSegment) (turns : List SpeakerTurn)
    (hs : s1.start = s2.start) (he : s1.stop = s2.stop) :
    current_speaker s1 turns = current_speaker s2 turns := by
  unfold current_speaker assignSpeakerFold
  have hstep : speakerFoldStep s1 = speakerFoldStep s2 := by
    funext st t
    simp [speakerFoldStep, segmentTurnOverlap, intervalOverlap, hs, he]
  rw [hstep]

/-- The outer loop accumulates exactly one line per segment, in order. -/
theorem combineLines_eq_map (segs : List TranscriptSegment) (turns : List SpeakerTurn) :
    combineLines segs turns = segs.map (fun seg => formatLine seg turns) := by
  unfold combineLines
  suffices h : ∀ (l : List TranscriptSegment) (acc : List String),
      l.foldl (fun a s => a ++ [formatLine s turns]) acc
        = acc ++ l.map (fun s => formatLine s turns) by
    simpa using h segs []
  intro l
  induction l with
  | nil => intro acc; simp
  | cons s ss ih => intro acc; simp [List.foldl_cons, ih]

/-! The claims. -/

/-- Claim C1, counterexample: a segment whose overlap with every turn is zero
receives no speaker label at all, so the assigned label is not taken from any
turn. For the segment `[0, 1]` and the single turn `[2, 3]` (speaker `A`) the
loop leaves `current_speaker = None`. -/
theorem c1_counterexample :
    current_speaker ⟨0, 1, "hi"⟩ [⟨2, 3, "A"⟩] = none ∧
    ¬ ∃ t ∈ [SpeakerTurn.mk 2 3 "A"],
        current_speaker ⟨0, 1, "hi"⟩ [⟨2, 3, "A"⟩] = some t.speaker := by
  have hov : segmentTurnOverlap ⟨0, 1, "hi"⟩ ⟨2, 3, "A"⟩ ≤ 0 := by
    norm_num [segmentTurnOverlap, intervalOverlap, min_def, max_def]
  have hnone : current_speaker ⟨0, 1, "hi"⟩ [⟨2, 3, "A"⟩] = none := by
    unfold current_speaker assignSpeakerFold
    rw [foldl_speakerStep_of_le _ _ _ _ ?_]
    intro t ht
    rw [List.mem_singleton] at ht
    rw [ht]
    exact hov
  exact ⟨hnone, by simp [hnone]⟩

/-- Claim C1, amended: whenever some turn has strictly positive overlap with
the segment, the loop assigns the speaker of a turn whose overlap is maximal
among all turns in the list; a segment with no strictly positive overlap
receives no speaker label. -/
theorem c1_max_overlap_speaker (seg : TranscriptSegment) (turns : List SpeakerTurn)
    (h : ∃ t ∈ turns, 0 < segmentTurnOverlap seg t) :
    ∃ t ∈ turns, current_speaker seg turns = some t.speaker ∧
      ∀ u ∈ turns, segmentTurnOverlap seg u ≤ segmentTurnOverlap seg t := by
  obtain ⟨h1, h2, h3⟩ := foldl_speakerStep_spec seg turns 0 none
  rcases h3 with h3 | ⟨t, ht, ht1, ht2, -⟩
  · obtain ⟨t, ht, htpos⟩ := h
    have := h2 t ht
    rw [h3] at this
    exact absurd (lt_of_lt_of_le htpos this) (lt_irrefl 0)
  · refine ⟨t, ht, ht2, ?_⟩
    intro u hu
    exact le_of_le_of_eq (h2 u hu) ht1

/-- Claim C1 witness: for the segment `[0, 2]` and the single turn `[0, 1]`
(speaker `A`), some turn has positive overlap, and the amended claim applies. -/
theorem c1_witness :
    (∃ t ∈ [SpeakerTurn.mk 0 1 "A"], 0 < segmentTurnOverlap ⟨0, 2, "x"⟩ t) ∧
    ∃ t ∈ [SpeakerTurn.mk 0 1 "A"],
      current_speaker ⟨0, 2, "x"⟩ [⟨0, 1, "A"⟩] = some t.speaker ∧
      ∀ u ∈ [SpeakerTurn.mk 0 1 "A"],
        segmentTurnOverlap ⟨0, 2, "x"⟩ u ≤ segmentTurnOverlap ⟨0, 2, "x"⟩ t := by
  have hpos : ∃ t ∈ [SpeakerTurn.mk 0 1 "A"], 0 < segmentTurnOverlap ⟨0, 2, "x"⟩ t := by
    refine ⟨⟨0, 1, "A"⟩, List.mem_singleton_self _, ?_⟩
    norm_num [segmentTurnOverlap, intervalOverlap, min_def, max_def]
  exact ⟨hpos, c1_max_overlap_speaker ⟨0, 2, "x"⟩ [⟨0, 1, "A"⟩] hpos⟩

/-- Claim C2: the combined output has exactly one line per segment, in
segment order, and the i-th line is
`[<start>s -> <end>s] <speaker>: <stripped text>` followed by the newline the
loop writes, with the times rendered by the one-decimal format. -/
theorem c2_output_lines (segs : List TranscriptSegment) (turns : List SpeakerTurn) :
    (combineLines segs turns).length = segs.length ∧
    ∀ (i : ℕ) (h : i < segs.length),
      (combineLines segs turns).get? i =
        some ("[" ++ (fmt1 (segs.get ⟨i, h⟩).start ++ "s") ++ " -> "
          ++ (fmt1 (segs.get ⟨i, h⟩).stop ++ "s") ++ "] "
          ++ pyStr (current_speaker (segs.get ⟨i, h⟩) turns) ++ ": "
          ++ pyStrip (segs.get ⟨i, h⟩).text ++ "\n") := by
  rw [combineLines_eq_map]
  refine ⟨List.length_map _ _, ?_⟩
  intro i h
  rw [List.get?_map, List.get?_eq_get h]
  rfl

/-- Claim C2 witness: the single-segment, no-turn instance. -/
theorem c2_witness :
    (combineLines [⟨0, 1, " hi "⟩] []).length = 1 ∧
    (combineLines [⟨0, 1, " hi "⟩] []).get? 0 =
      some ("[" ++ (fmt1 (0 : ℚ) ++ "s") ++ " -> " ++ (fmt1 (1 : ℚ) ++ "s") ++ "] "
        ++ pyStr (current_speaker ⟨0, 1, " hi "⟩ []) ++ ": " ++ pyStrip " hi " ++ "\n") := by
  constructor
  · exact (c2_output_lines [⟨0, 1, " hi "⟩] []).1
  · simpa using (c2_output_lines [⟨0, 1, " hi "⟩] []).2 0 (by norm_num)

/-- Claim C3: the loop's overlap equals `max 0 (min e1 e2 - max s1 s2)`, is
never negative, and for non-degenerate intervals it is the length of the
intersection of the two closed intervals. -/
theorem c3_overlap_intersection (s1 e1 s2 e2 : ℚ) :
    intervalOverlap s1 e1 s2 e2 = max 0 (min e1 e2 - max s1 s2) ∧
    0 ≤ intervalOverlap s1 e1 s2 e2 ∧
    (s1 ≤ e1 → s2 ≤ e2 →
      Set.Icc s1 e1 ∩ Set.Icc s2 e2 = Set.Icc (max s1 s2) (min e1 e2) ∧
      intervalOverlap s1 e1 s2 e2 = intervalLength (max s1 s2) (min e1 e2)) := by
  refine ⟨rfl, le_max_left _ _, fun _ _ => ⟨?_, rfl⟩⟩
  rw [Set.Icc_inter_Icc, sup_eq_max, inf_eq_min]

/-- Claim C3 witness: the intervals `[0, 2]` and `[1, 3]`. -/
theorem c3_witness :
    (0 : ℚ) ≤ 2 ∧ (1 : ℚ) ≤ 3 ∧
    (Set.Icc (0 : ℚ) 2 ∩ Set.Icc 1 3 = Set.Icc (max 0 1) (min 2 3) ∧
      intervalOverlap 0 2 1 3 = intervalLength (max 0 1) (min 2 3)) :=
  ⟨by norm_num, by norm_num, (c3_overlap_intersection 0 2 1 3).2.2 (by norm_num) (by norm_num)⟩

/-- Claim C4: the overlap computation is symmetric in the two intervals. -/
theorem c4_overlap_symm (s1 e1 s2 e2 : ℚ) :
    intervalOverlap s1 e1 s2 e2 = intervalOverlap s2 e2 s1 e1 := by
  simp [intervalOverlap, max_comm s1 s2, min_comm e1 e2]

/-- Claim C5: the matching routine is deterministic and stateless: equal
segment lists and equal turn lists produce identical output lines. -/
theorem c5_deterministic (segs1 segs2 : List TranscriptSegment)
    (turns1 turns2 : List SpeakerTurn) (hs : segs1 = segs2) (ht : turns1 = turns2) :
    combineLines segs1 turns1 = combineLines segs2 turns2 := by
  rw [hs, ht]

/-- Claim C5 witness: two runs on the same concrete inputs. -/
theorem c5_witness :
    [TranscriptSegment.mk 0 1 "a"] = [TranscriptSegment.mk 0 1 "a"] ∧
    [SpeakerTurn.mk 0 1 "S"] = [SpeakerTurn.mk 0 1 "S"] ∧
    combineLines [⟨0, 1, "a"⟩] [⟨0, 1, "S"⟩] = combineLines [⟨0, 1, "a"⟩] [⟨0, 1, "S"⟩] :=
  ⟨rfl, rfl, c5_deterministic [⟨0, 1, "a"⟩] [⟨0, 1, "a"⟩] [⟨0, 1, "S"⟩] [⟨0, 1, "S"⟩] rfl rfl⟩

/-- Claim C6: the speaker assigned to the i-th segment depends only on that
segment's endpoints and the turn list: no state is carried across segments. -/
theorem c6_speaker_local (segs1 segs2 : List TranscriptSegment)
    (turns : List SpeakerTurn) (i : ℕ)
    (h : (segs1.get? i).map (fun s => (s.start, s.stop))
        = (segs2.get? i).map (fun s => (s.start, s.stop))) :
    (assignedSpeakers segs1 turns).get? i = (assignedSpeakers segs2 turns).get? i := by
  unfold assignedSpeakers
  rw [List.get?_map, List.get?_map]
  cases h1 : segs1.get? i with
  | none =>
    cases h2 : segs2.get? i with
    | none => rfl
    | some s2 => rw [h1, h2] at h; simp at h
  | some s1 =>
    cases h2 : segs2.get? i with
    | none => rw [h1, h2] at h; simp at h
    | some s2 =>
      rw [h1, h2] at h
      simp at h
      simp [current_speaker_congr s1 s2 turns h.1 h.2]

/-- Claim C6 witness: two single-segment lists whose segments share endpoints
but differ in text are assigned the same speaker. -/
theorem c6_witness :
    (([TranscriptSegment.mk 0 1 "a"].get? 0).map (fun s => (s.start, s.stop))
      = ([TranscriptSegment.mk 0 1 "b"].get? 0).map (fun s => (s.start, s.stop))) ∧
    (assignedSpeakers [⟨0, 1, "a"⟩] [⟨0, 1, "S"⟩]).get? 0
      = (assignedSpeakers [⟨0, 1, "b"⟩] [⟨0, 1, "S"⟩]).get? 0 :=
  ⟨rfl, c6_speaker_local [⟨0, 1, "a"⟩] [⟨0, 1, "b"⟩] [⟨0, 1, "S"⟩] 0 rfl⟩

/-- Claim C7: the routine is a single pass: the output is a map over the
segment list, and the per-segment work is one fold over the turn list; both
are structurally recursive, so the routine terminates on all finite inputs. -/
theorem c7_single_pass (segs : List TranscriptSegment) (turns : List SpeakerTurn) :
    combineLines segs turns = segs.map (fun seg => formatLine seg turns) ∧
    ∀ seg, assignSpeakerFold seg turns = turns.foldl (speakerFoldStep seg) (0, none) :=
  ⟨combineLines_eq_map segs turns, fun _ => rfl⟩

/-- Claim C8: tie-breaking is first-wins: a turn of maximal positive overlap
that strictly beats every earlier turn and is not strictly beaten by any later
turn is the one whose speaker is assigned. -/
theorem c8_first_wins (seg : TranscriptSegment) (pre post : List SpeakerTurn)
    (t : SpeakerTurn)
    (hpos : 0 < segmentTurnOverlap seg t)
    (hpre : ∀ u ∈ pre, segmentTurnOverlap seg u < segmentTurnOverlap seg t)
    (hpost : ∀ u ∈ post, segmentTurnOverlap seg u ≤ segmentTurnOverlap seg t) :
    current_speaker seg (pre ++ t :: post) = some t.speaker := by
  unfold current_speaker assignSpeakerFold
  rw [List.foldl_append]
  obtain ⟨-, -, h3⟩ := foldl_speakerStep_spec seg pre 0 none
  have hlt : (List.foldl (speakerFoldStep seg) (0, none) pre).1 < segmentTurnOverlap seg t := by
    rcases h3 with h3 | ⟨u, hu, hu1, -, -⟩
    · rw [h3]; exact hpos
    · rw [hu1]; exact hpre u hu
  rw [List.foldl_cons]
  have hstep : speakerFoldStep seg (List.foldl (speakerFoldStep seg) (0, none) pre) t
      = (segmentTurnOverlap seg t, some t.speaker) := by
    simp [speakerFoldStep, hlt]
  rw [hstep, foldl_speakerStep_of_le seg post _ _ hpost]

/-- Claim C8 witness: the segment `[0, 2]` with turns `[0, 1]` (speaker `A`)
and `[1, 2]` (speaker `B`), both of overlap 1: the earlier turn wins. -/
theorem c8_witness :
    0 < segmentTurnOverlap ⟨0, 2, "x"⟩ ⟨0, 1, "A"⟩ ∧
    current_speaker ⟨0, 2, "x"⟩ ([] ++ ⟨0, 1, "A"⟩ :: [⟨1, 2, "B"⟩]) = some "A" := by
  have hpos : 0 < segmentTurnOverlap ⟨0, 2, "x"⟩ ⟨0, 1, "A"⟩ := by
    norm_num [segmentTurnOverlap, intervalOverlap, min_def, max_def]
  refine ⟨hpos, c8_first_wins ⟨0, 2, "x"⟩ [] [⟨1, 2, "B"⟩] ⟨0, 1, "A"⟩ hpos ?_ ?_⟩
  · intro u hu; simp at hu
  · intro u hu
    rw [List.mem_singleton] at hu
    rw [hu]
    norm_num [segmentTurnOverlap, intervalOverlap, min_def, max_def]

/-- Claim C9: when no turn has strictly positive overlap with a segment, no
speaker is selected: `current_speaker` stays `None` and the written line
carries the literal text `None` as its speaker label. -/
theorem c9_none_label (seg : TranscriptSegment) (turns : List SpeakerTurn)
    (h : ∀ t ∈ turns, segmentTurnOverlap seg t ≤ 0) :
    current_speaker seg turns = none ∧
    formatLine seg turns = "[" ++ (fmt1 seg.start ++ "s") ++ " -> "
      ++ (fmt1 seg.stop ++ "s") ++ "] " ++ "None" ++ ": " ++ pyStrip seg.text ++ "\n" := by
  have hc : current_speaker seg turns = none := by
    unfold current_speaker assignSpeakerFold
    rw [foldl_speakerStep_of_le seg turns 0 none h]
  refine ⟨hc, ?_⟩
  simp [formatLine, hc, pyStr]

/-- Claim C9 witness: the segment `[0, 1]` and one turn `[1, 2]` that merely
touches it at an endpoint. -/
theorem c9_witness :
    (∀ t ∈ [SpeakerTurn.mk 1 2 "A"], segmentTurnOverlap ⟨0, 1, " hi "⟩ t ≤ 0) ∧
    current_speaker ⟨0, 1, " hi "⟩ [⟨1, 2, "A"⟩] = none ∧
    formatLine ⟨0, 1, " hi "⟩ [⟨1, 2, "A"⟩] = "[" ++ (fmt1 (0 : ℚ) ++ "s") ++ " -> "
      ++ (fmt1 (1 : ℚ) ++ "s") ++ "] " ++ "None" ++ ": " ++ pyStrip " hi " ++ "\n" := by
  have h : ∀ t ∈ [SpeakerTurn.mk 1 2 "A"], segmentTurnOverlap ⟨0, 1, " hi "⟩ t ≤ 0 := by
    intro t ht
    rw [List.mem_singleton] at ht
    rw [ht]
    norm_num [segmentTurnOverlap, intervalOverlap, min_def, max_def]
  exact ⟨h, c9_none_label ⟨0, 1, " hi "⟩ [⟨1, 2, "A"⟩] h⟩

/-- Claim C10: with `HF_TOKEN` unset or empty the configuration step raises
`ValueError` and the models are never loaded; with a non-empty token it
succeeds and model initialization proceeds. -/
theorem c10_hf_token (s : String) (hs : s ≠ "") :
    checkHfToken none = Except.error hfTokenError ∧
    checkHfToken (some "") = Except.error hfTokenError ∧
    notebookInit none = Except.error hfTokenError ∧
    notebookInit (some "") = Except.error hfTokenError ∧
    checkHfToken (some s) = Except.ok s ∧
    notebookInit (some s) = Except.ok ("large-v3", "pyannote/speaker-diarization-3.1") := by
  refine ⟨rfl, rfl, rfl, rfl, ?_, ?_⟩
  · simp [checkHfToken, hs]
  · simp [notebookInit, checkHfToken, hs]

/-- Claim C10 witness: the non-empty token `token`. -/
theorem c10_witness :
    "token" ≠ "" ∧
    checkHfToken (some "token") = Except.ok "token" ∧
    notebookInit (some "token") = Except.ok ("large-v3", "pyannote/speaker-diarization-3.1") :=
  ⟨by decide, (c10_hf_token "token" (by decide)).2.2.2.2⟩

end DiarizeTranscribe
